import Mathlib

/-!
Verification of the RotatingSquare demo (`src/RotatingSquare/RotatingSquare.js`).

The program keeps a handful of scalars (rotation angle `ang`, `scale`,
translation `tx`/`ty`, active corner index `cindex`, `click` flag,
`collisionMode`, angle `increment`) plus a model matrix and a pivot vector
(`currentCorner`).  Every animation frame it runs collision detection on the
four tracked square corners, updates the angle, optionally re-anchors the
pivot, and rebuilds the model matrix with `rotateAndScaleAboutCorner`.

The embedding below is generic in a linear ordered field `K` standing for the
exact arithmetic of the program.  The cosine/sine used by
`Matrix4.rotate(ang, 0, 0, 1)` (degree-based trigonometric functions) are
passed as opaque parameters `cosd sind : K → K`: no claim in this development
depends on their values, so all theorems quantify over them and in particular
hold for the real trigonometric functions.
-/

set_option autoImplicit false

namespace RotatingSquare

variable {K : Type} [LinearOrderedField K]

/-- Homogeneous 4-component vector, as used by the cuon-matrix `Vector4`. -/
abbrev Vec4 (K : Type) := Fin 4 → K

/-- 4×4 matrix, as used by the cuon-matrix `Matrix4` (stored here row-major,
representing the same linear map as the column-major source arrays). -/
abbrev Mat4 (K : Type) := Fin 4 → Fin 4 → K

/-- Build a `Vec4` from its four components. -/
def vec4 (a b c d : K) : Vec4 K := fun i =>
  if i.val = 0 then a else if i.val = 1 then b else if i.val = 2 then c else d

/-- Build a `Mat4` from its four rows. -/
def mat4 (r0 r1 r2 r3 : Vec4 K) : Mat4 K := fun i =>
  if i.val = 0 then r0 else if i.val = 1 then r1 else if i.val = 2 then r2 else r3

/-- Matrix product (`Matrix4.multiply` / `concat` of cuon-matrix:
`a.multiply(b)` computes `a * b`). -/
def mul4 (a b : Mat4 K) : Mat4 K := fun i j =>
  a i 0 * b 0 j + a i 1 * b 1 j + a i 2 * b 2 j + a i 3 * b 3 j

/-- Matrix-vector product (`Matrix4.multiplyVector4`). -/
def mulVec4 (m : Mat4 K) (v : Vec4 K) : Vec4 K := fun i =>
  m i 0 * v 0 + m i 1 * v 1 + m i 2 * v 2 + m i 3 * v 3

/-- The identity matrix (`new Matrix4()`). -/
def id4 : Mat4 K :=
  mat4 (vec4 1 0 0 0) (vec4 0 1 0 0) (vec4 0 0 1 0) (vec4 0 0 0 1)

/-- `Matrix4.setTranslate(x, y, z)`: translation matrix. -/
def setTranslate (x y z : K) : Mat4 K :=
  mat4 (vec4 1 0 0 x) (vec4 0 1 0 y) (vec4 0 0 1 z) (vec4 0 0 0 1)

/-- The scale matrix right-multiplied by `Matrix4.scale(x, y, z)`. -/
def scaleMat4 (x y z : K) : Mat4 K :=
  mat4 (vec4 x 0 0 0) (vec4 0 y 0 0) (vec4 0 0 z 0) (vec4 0 0 0 1)

/-- The rotation matrix right-multiplied by `Matrix4.rotate(ang, 0, 0, 1)`,
where `c`/`s` are the cosine/sine of the angle (given in degrees in the
source and converted to radians there). -/
def rotateZ (c s : K) : Mat4 K :=
  mat4 (vec4 c (-s) 0 0) (vec4 s c 0 0) (vec4 0 0 1 0) (vec4 0 0 0 1)

/-- Matrix built by `rotateAndScaleAboutCorner(ang, x, y, tx, ty)`:
`setTranslate(x,y,0)` then `.scale(scale,scale,1)`, `.rotate(ang,0,0,1)`,
`.translate(-x,-y,0)`, `.translate(tx,ty,0)` — each a right-multiplication.
`c`/`s` stand for the cosine/sine of `ang` and `sc` for the global `scale`. -/
def rotateAndScaleAboutCorner (c s sc x y tx ty : K) : Mat4 K :=
  mul4 (mul4 (mul4 (mul4 (setTranslate x y 0) (scaleMat4 sc sc 1))
    (rotateZ c s)) (setTranslate (-x) (-y) 0)) (setTranslate tx ty 0)

/-- `Matrix4.setOrtho(l, r, b, t, n, f)` of cuon-matrix. -/
def setOrtho (l r b t n f : K) : Mat4 K :=
  mat4 (vec4 (2 / (r - l)) 0 0 (-((r + l) / (r - l))))
    (vec4 0 (2 / (t - b)) 0 (-((t + b) / (t - b))))
    (vec4 0 0 (-(2 / (f - n))) (-((f + n) / (f - n))))
    (vec4 0 0 0 1)

/-- The vertex position data: a square made of two triangles, two coordinates
per vertex (the `vertices` Float32Array). -/
def vertices : List K :=
  [-(1/2), -(1/2),
    1/2, -(1/2),
    1/2, 1/2,
    -(1/2), -(1/2),
    1/2, 1/2,
    -(1/2), 1/2]

/-- `numPoints = vertices.length / 2`. -/
def numPoints : ℕ := (vertices : List ℚ).length / 2

/-- The per-vertex RGBA color data (the `colors` Float32Array). -/
def colors : List K :=
  [1, 1/2, 1/2, 1,
    0, 1, 1/2, 1,
    1/2, 1/2, 1, 1,
    1, 1/2, 1/2, 1,
    1/2, 1/2, 1, 1,
    1, 1, 1, 1]

/-- `getVertex(i)`: coordinates of the vertex at index `i`. -/
def getVertex (i : ℕ) : K × K :=
  let j := (i % numPoints) * 2
  (vertices.getD j 0, vertices.getD (j + 1) 0)

/-- Window length `wsize`. -/
def wsize : K := 5

/-- The state of the program: the mutable globals (`modelMatrix`,
`projectionMatrix`, `cindex`, `click`, `collisionMode`, `scale`) together
with the variables captured by the `runanimation` closure (`ang`, `tx`, `ty`,
`increment`, `currentCorner`). -/
structure AnimState (K : Type) where
  modelMatrix : Mat4 K
  projectionMatrix : Mat4 K
  cindex : ℕ
  click : Bool
  collisionMode : ℕ
  scale : K
  ang : K
  tx : K
  ty : K
  increment : K
  corner : Vec4 K

/-- The four collision cases of `processCollision` (`"left"`, `"right"`,
`"up"`, `"down"`). -/
inductive CollisionType
  | left
  | right
  | up
  | down
deriving DecidableEq

/-- `processCollision(collidedIndex, position, collisionType)`: left-multiply
a corrective translation of size `fixAmount = 0.08` onto the model matrix,
then either re-target the pivot corner (mode 0) or reverse the angle
increment (otherwise). -/
def processCollision (s : AnimState K) (collidedIndex : ℕ)
    (collisionType : CollisionType) : AnimState K :=
  let fixAmount : K := 8/100
  let translateMatrix : Mat4 K :=
    match collisionType with
    | .left => setTranslate fixAmount 0 0
    | .right => setTranslate (-fixAmount) 0 0
    | .up => setTranslate 0 (-fixAmount) 0
    | .down => setTranslate 0 fixAmount 0
  let s := { s with modelMatrix := mul4 translateMatrix s.modelMatrix }
  if s.collisionMode = 0 then
    { s with cindex := collidedIndex, click := true }
  else
    { s with increment := -s.increment }

/-- `getTransformedPosition(index)`: the first two components of the vertex
at `index`, as a homogeneous point, transformed by the model matrix. -/
def getTransformedPosition (m : Mat4 K) (index : ℕ) : K × K :=
  let vertex := getVertex index
  let position := mulVec4 m (vec4 vertex.1 vertex.2 0 1)
  (position 0, position 1)

/-- The loop body of `detectcollision` for a single corner index: test the
transformed position against the viewport bounds, in the source's order. -/
def collideStep (s : AnimState K) (i : ℕ) : AnimState K :=
  let position := getTransformedPosition s.modelMatrix i
  let x := position.1
  let y := position.2
  if x < -wsize / 2 then processCollision s i .left
  else if x > wsize / 2 then processCollision s i .right
  else if y < -wsize / 2 then processCollision s i .down
  else if y > wsize / 2 then processCollision s i .up
  else s

/-- The tracked corner indexes (`cornerIndexes = [0, 1, 2, 5]`). -/
def cornerIndexes : List ℕ := [0, 1, 2, 5]

/-- `detectcollision()`: process the tracked corners in order, threading the
state (the source mutates `modelMatrix` and the globals inside the loop). -/
def detectcollision (s : AnimState K) : AnimState K :=
  cornerIndexes.foldl collideStep s

/-- `handleKeyPress(event)`: the `switch` on the key string.  Every
recognised key falls through to `click = true`; the default case returns
with the state unchanged. -/
def handleKeyPress (ch : String) (s : AnimState K) : AnimState K :=
  if ch = "r" then { s with cindex := 0, click := true }
  else if ch = "g" then { s with cindex := 1, click := true }
  else if ch = "b" then { s with cindex := 2, click := true }
  else if ch = "w" then { s with cindex := 5, click := true }
  else if ch = "ArrowUp" then
    { s with scale := if s.scale < 3/2 then s.scale + 1/10 else s.scale,
             click := true }
  else if ch = "ArrowDown" then
    { s with scale := if s.scale > 1/2 then s.scale - 1/10 else s.scale,
             click := true }
  else if ch = "0" then { s with collisionMode := 0, click := true }
  else if ch = "1" then { s with collisionMode := 1, click := true }
  else s

/-- JavaScript's `%` on numbers: remainder with truncated (toward zero)
quotient, so the result keeps the sign of the dividend. -/
def jsMod [FloorRing K] (a n : K) : K :=
  a - n * (((if 0 ≤ a / n then ⌊a / n⌋ else ⌈a / n⌉) : ℤ) : K)

/-- The body of the animation loop returned by `runanimation`:
`detectcollision()`, advance and wrap the angle, re-anchor the pivot if
`click` is set, then rebuild the model matrix with
`rotateAndScaleAboutCorner`. -/
def runanimationStep [FloorRing K] (cosd sind : K → K)
    (s : AnimState K) : AnimState K :=
  let s := detectcollision s
  let a := jsMod (s.ang + s.increment) 360
  let s :=
    if s.click then
      let v := getVertex s.cindex
      let c := mulVec4 s.modelMatrix (vec4 v.1 v.2 (s.corner 2) (s.corner 3))
      { s with ang := a, corner := c, tx := c 0 - v.1, ty := c 1 - v.2,
               click := false }
    else { s with ang := a }
  { s with modelMatrix := (rotateAndScaleAboutCorner (cosd s.ang)
      (sind s.ang) s.scale (s.corner 0) (s.corner 1) s.tx s.ty) }

/-- The initial state: the globals' initialisers plus the `runanimation`
closure's initialisers (`ang = 0`, `tx = ty = 0`, `increment = 2`,
`currentCorner = Vector4([...getVertex(cindex), 0, 1])` with `cindex = 0`). -/
def initState : AnimState K where
  modelMatrix := id4
  projectionMatrix := setOrtho (-wsize / 2) (wsize / 2) (-wsize / 2)
    (wsize / 2) 0 1
  cindex := 0
  click := false
  collisionMode := 0
  scale := 1
  ang := 0
  tx := 0
  ty := 0
  increment := 2
  corner := vec4 (getVertex 0).1 (getVertex 0).2 0 1

/-- An external event: a keydown or an animation frame. -/
inductive Event
  | key (ch : String)
  | frame

/-- One event transition. -/
def step [FloorRing K] (cosd sind : K → K) (s : AnimState K) :
    Event → AnimState K
  | .key ch => handleKeyPress ch s
  | .frame => runanimationStep cosd sind s

/-- Run the program from the initial state over a sequence of events. -/
def runProgram [FloorRing K] (cosd sind : K → K) (evs : List Event) :
    AnimState K :=
  evs.foldl (step cosd sind) initState

/-- Membership in the (closed) triangle spanned by `a`, `b`, `c`: the point is
a convex combination of the three vertices. -/
def inTriangle (a b c p : K × K) : Prop :=
  ∃ u v w : K, 0 ≤ u ∧ 0 ≤ v ∧ 0 ≤ w ∧ u + v + w = 1 ∧
    p.1 = u * a.1 + v * b.1 + w * c.1 ∧ p.2 = u * a.2 + v * b.2 + w * c.2

/-- The translation left-multiplied by `processCollision` for each collision
type (the `switch (collisionType)` table, with `fixAmount = 0.08`). -/
def fixTranslation : CollisionType → Mat4 K
  | .left => setTranslate (8/100) 0 0
  | .right => setTranslate (-(8/100)) 0 0
  | .up => setTranslate 0 (-(8/100)) 0
  | .down => setTranslate 0 (8/100) 0

/-- The bound-violation test of `detectcollision` associated with each
collision type. -/
def violates (p : K × K) : CollisionType → Prop
  | .left => p.1 < -wsize / 2
  | .right => p.1 > wsize / 2
  | .down => p.2 < -wsize / 2
  | .up => p.2 > wsize / 2

/-- The model matrix as a function of the scalar state only: the pivot point
is recovered from the corner index and the accumulated translation as
`vertex(cindex) + (tx, ty)`. -/
def buildModelMatrix (cosd sind : K → K) (ang sc : K) (ci : ℕ) (tx ty : K) :
    Mat4 K :=
  rotateAndScaleAboutCorner (cosd ang) (sind ang) sc
    (tx + (getVertex ci).1) (ty + (getVertex ci).2) tx ty

/-- The shape shared by every matrix the program stores in `modelMatrix`:
rows 2 and 3 are those of the identity, so the transform fixes the `z` and
`w` components of homogeneous points. -/
def Affine2 (m : Mat4 K) : Prop :=
  m 2 0 = 0 ∧ m 2 1 = 0 ∧ m 2 2 = 1 ∧ m 2 3 = 0 ∧
  m 3 0 = 0 ∧ m 3 1 = 0 ∧ m 3 2 = 0 ∧ m 3 3 = 1

/-- Inductive invariant of the animation state: the pivot vector is a
homogeneous point (`z = 0`, `w = 1`), the model matrix is `Affine2`, and
unless a re-anchor is pending (`click`), the pivot equals the selected
vertex translated by `(tx, ty)`. -/
def CornerOK (s : AnimState K) : Prop :=
  s.corner 2 = 0 ∧ s.corner 3 = 1 ∧ Affine2 s.modelMatrix ∧
  (s.click = true ∨
    (s.corner 0 = s.tx + (getVertex s.cindex).1 ∧
     s.corner 1 = s.ty + (getVertex s.cindex).2))

/-- Invariant for the scale factor: a multiple of `1/10` between `5/10` and
`15/10`. -/
def scaleInv (s : AnimState K) : Prop :=
  ∃ k : ℕ, 5 ≤ k ∧ k ≤ 15 ∧ s.scale = (k : K) / 10

/-- A concrete state whose corner 0 is out of bounds on the right
(transformed `x = 3.5 > 2.5`), used as a test input. -/
def wstateRight : AnimState ℚ where
  modelMatrix := setTranslate 4 0 0
  projectionMatrix := id4
  cindex := 0
  click := false
  collisionMode := 0
  scale := 1
  ang := 0
  tx := 0
  ty := 0
  increment := 2
  corner := vec4 (-(1/2)) (-(1/2)) 0 1

/-- A concrete state whose corner 0 is out of bounds below
(transformed `y = -4.5 < -2.5`, `x` in bounds), used as a test input. -/
def wstateDown : AnimState ℚ where
  modelMatrix := setTranslate 0 (-4) 0
  projectionMatrix := id4
  cindex := 0
  click := false
  collisionMode := 0
  scale := 1
  ang := 0
  tx := 0
  ty := 0
  increment := 2
  corner := vec4 (-(1/2)) (-(1/2)) 0 1

/-- A concrete state whose corner 0 is out of bounds above
(transformed `y = 3.5 > 2.5`, `x` in bounds), with `collisionMode = 1`,
used as a test input. -/
def wstateUp : AnimState ℚ where
  modelMatrix := setTranslate 0 4 0
  projectionMatrix := id4
  cindex := 0
  click := false
  collisionMode := 1
  scale := 1
  ang := 0
  tx := 0
  ty := 0
  increment := 2
  corner := vec4 (-(1/2)) (-(1/2)) 0 1

/-- A concrete state with a pending re-anchor (`click = true`) and all
corners in bounds, used as a test input. -/
def wstateClick : AnimState ℚ where
  modelMatrix := id4
  projectionMatrix := id4
  cindex := 1
  click := true
  collisionMode := 0
  scale := 1
  ang := 0
  tx := 0
  ty := 0
  increment := 2
  corner := vec4 (-(1/2)) (-(1/2)) 0 1

section VecLemmas

variable {K : Type}

@[simp] lemma vec4_app0 (a b c d : K) : vec4 a b c d 0 = a := rfl

@[simp] lemma vec4_app1 (a b c d : K) : vec4 a b c d 1 = b := rfl

@[simp] lemma vec4_app2 (a b c d : K) : vec4 a b c d 2 = c := rfl

@[simp] lemma vec4_app3 (a b c d : K) : vec4 a b c d 3 = d := rfl

@[simp] lemma mat4_app0 (r0 r1 r2 r3 : Vec4 K) : mat4 r0 r1 r2 r3 0 = r0 := rfl

@[simp] lemma mat4_app1 (r0 r1 r2 r3 : Vec4 K) : mat4 r0 r1 r2 r3 1 = r1 := rfl

@[simp] lemma mat4_app2 (r0 r1 r2 r3 : Vec4 K) : mat4 r0 r1 r2 r3 2 = r2 := rfl

@[simp] lemma mat4_app3 (r0 r1 r2 r3 : Vec4 K) : mat4 r0 r1 r2 r3 3 = r3 := rfl

lemma vec4_ext (v w : Vec4 K) (h0 : v 0 = w 0) (h1 : v 1 = w 1)
    (h2 : v 2 = w 2) (h3 : v 3 = w 3) : v = w := by
  funext i
  fin_cases i
  · exact h0
  · exact h1
  · exact h2
  · exact h3

end VecLemmas

@[simp] lemma getVertex_zero : (getVertex 0 : K × K) = (-(1/2), -(1/2)) := rfl

@[simp] lemma getVertex_one : (getVertex 1 : K × K) = (1/2, -(1/2)) := rfl

@[simp] lemma getVertex_two : (getVertex 2 : K × K) = (1/2, 1/2) := rfl

@[simp] lemma getVertex_three : (getVertex 3 : K × K) = (-(1/2), -(1/2)) := rfl

@[simp] lemma getVertex_four : (getVertex 4 : K × K) = (1/2, 1/2) := rfl

@[simp] lemma getVertex_five : (getVertex 5 : K × K) = (-(1/2), 1/2) := rfl

lemma mulVec4_mul4 (a b : Mat4 K) (v : Vec4 K) :
    mulVec4 (mul4 a b) v = mulVec4 a (mulVec4 b v) := by
  funext i
  simp only [mulVec4, mul4]
  ring

lemma setTranslate_mulVec (a b c : K) (v : Vec4 K) :
    mulVec4 (setTranslate a b c) v =
      vec4 (v 0 + a * v 3) (v 1 + b * v 3) (v 2 + c * v 3) (v 3) := by
  refine vec4_ext _ _ ?_ ?_ ?_ ?_ <;> simp [mulVec4, setTranslate] <;> ring

lemma scaleMat4_mulVec (a b c : K) (v : Vec4 K) :
    mulVec4 (scaleMat4 a b c) v =
      vec4 (a * v 0) (b * v 1) (c * v 2) (v 3) := by
  refine vec4_ext _ _ ?_ ?_ ?_ ?_ <;> simp [mulVec4, scaleMat4] <;> ring

lemma rotateZ_mulVec (c s : K) (v : Vec4 K) :
    mulVec4 (rotateZ c s) v =
      vec4 (c * v 0 - s * v 1) (s * v 0 + c * v 1) (v 2) (v 3) := by
  refine vec4_ext _ _ ?_ ?_ ?_ ?_ <;> simp [mulVec4, rotateZ] <;> ring

/-- Claim C4: for every rotation entries `c`/`s` (cosine and sine of the
angle), scale factor `sc`, pivot coordinates `(x, y)` and accumulated
translation `(tx, ty)`, the matrix built by `rotateAndScaleAboutCorner`
equals `T(x,y)·S(sc)·R·T(-x,-y)·T(tx,ty)`, maps `(x - tx, y - ty)` to
`(x, y)`, and when `tx = ty = 0` fixes the pivot point `(x, y)`. -/
theorem rotateAndScaleAboutCorner_pivot (c s sc x y tx ty : K) :
    rotateAndScaleAboutCorner c s sc x y tx ty =
      mul4 (mul4 (mul4 (mul4 (setTranslate x y 0) (scaleMat4 sc sc 1))
        (rotateZ c s)) (setTranslate (-x) (-y) 0)) (setTranslate tx ty 0) ∧
    mulVec4 (rotateAndScaleAboutCorner c s sc x y tx ty)
      (vec4 (x - tx) (y - ty) 0 1) = vec4 x y 0 1 ∧
    mulVec4 (rotateAndScaleAboutCorner c s sc x y 0 0)
      (vec4 x y 0 1) = vec4 x y 0 1 := by
  refine ⟨rfl, ?_, ?_⟩ <;>
  · simp only [rotateAndScaleAboutCorner, mulVec4_mul4, setTranslate_mulVec,
      scaleMat4_mulVec, rotateZ_mulVec, vec4_app0, vec4_app1, vec4_app2,
      vec4_app3]
    refine vec4_ext _ _ ?_ ?_ ?_ ?_ <;> simp <;> ring

/-- Claim C7: the geometry is 6 two-dimensional vertices (`numPoints = 6`),
the color buffer has one RGBA color per vertex (24 scalars), and the two
triangles (vertices 0-1-2 and 3-4-5) together cover exactly the square
`[-1/2, 1/2] × [-1/2, 1/2]`. -/
theorem vertices_cover_square :
    numPoints = 6 ∧ (colors : List ℚ).length = 6 * 4 ∧
    ∀ p : ℝ × ℝ,
      (-(1/2) ≤ p.1 ∧ p.1 ≤ 1/2 ∧ -(1/2) ≤ p.2 ∧ p.2 ≤ 1/2) ↔
      (inTriangle (getVertex 0) (getVertex 1) (getVertex 2) p ∨
       inTriangle (getVertex 3) (getVertex 4) (getVertex 5) p) := by
  refine ⟨rfl, rfl, fun p => ⟨fun h => ?_, fun h => ?_⟩⟩
  · obtain ⟨hx0, hx1, hy0, hy1⟩ := h
    rcases le_total p.2 p.1 with hle | hle
    · exact Or.inl ⟨1/2 - p.1, p.1 - p.2, p.2 + 1/2,
        by linarith, by linarith, by linarith, by ring,
        by simp; ring, by simp; ring⟩
    · exact Or.inr ⟨1/2 - p.2, 1/2 + p.1, p.2 - p.1,
        by linarith, by linarith, by linarith, by ring,
        by simp; ring, by simp; ring⟩
  · rcases h with ⟨u, v, w, hu, hv, hw, hsum, hx, hy⟩ |
      ⟨u, v, w, hu, hv, hw, hsum, hx, hy⟩ <;>
    · simp at hx hy
      refine ⟨by linarith, by linarith, by linarith, by linarith⟩

/-- Claim C10: a keydown whose key is none of the eight recognised strings
hits the `default: return` branch and leaves the state unchanged. -/
theorem handleKeyPress_unrecognised (s : AnimState K) (ch : String)
    (h : ch ∉ (["r", "g", "b", "w", "ArrowUp", "ArrowDown", "0", "1"] :
      List String)) :
    handleKeyPress ch s = s := by
  simp only [List.mem_cons, List.not_mem_nil, or_false, not_or] at h
  obtain ⟨h1, h2, h3, h4, h5, h6, h7, h8⟩ := h
  simp [handleKeyPress, h1, h2, h3, h4, h5, h6, h7, h8]

lemma processCollision_modelMatrix (s : AnimState K) (i : ℕ)
    (t : CollisionType) :
    (processCollision s i t).modelMatrix =
      mul4 (fixTranslation t) s.modelMatrix := by
  cases t <;> simp [processCollision, fixTranslation, apply_ite]

lemma processCollision_mode0 (s : AnimState K) (i : ℕ) (t : CollisionType)
    (h : s.collisionMode = 0) :
    (processCollision s i t).cindex = i ∧
    (processCollision s i t).click = true ∧
    (processCollision s i t).increment = s.increment := by
  cases t <;> simp [processCollision, h]

lemma processCollision_modeNe (s : AnimState K) (i : ℕ) (t : CollisionType)
    (h : s.collisionMode ≠ 0) :
    (processCollision s i t).cindex = s.cindex ∧
    (processCollision s i t).click = s.click ∧
    (processCollision s i t).increment = -s.increment := by
  cases t <;> simp [processCollision, h]

/-- Claim C1: whenever a tracked corner's transformed position exceeds the
viewport half-extent on some axis, the per-corner collision processing calls
`processCollision` for a violated axis: in mode 0 it re-targets `cindex` to
the offending corner and sets the re-anchor flag (leaving the increment
alone), in mode 1 it negates the angle increment (leaving `cindex` and
`click` alone), and in both modes it left-multiplies the corrective
translation for that axis onto the model matrix. -/
theorem collision_response (s : AnimState K) (i : ℕ)
    (h : (getTransformedPosition s.modelMatrix i).1 < -wsize / 2 ∨
         (getTransformedPosition s.modelMatrix i).1 > wsize / 2 ∨
         (getTransformedPosition s.modelMatrix i).2 < -wsize / 2 ∨
         (getTransformedPosition s.modelMatrix i).2 > wsize / 2) :
    ∃ t : CollisionType,
      violates (getTransformedPosition s.modelMatrix i) t ∧
      collideStep s i = processCollision s i t ∧
      (collideStep s i).modelMatrix = mul4 (fixTranslation t) s.modelMatrix ∧
      (s.collisionMode = 0 →
        (collideStep s i).cindex = i ∧ (collideStep s i).click = true ∧
        (collideStep s i).increment = s.increment) ∧
      (s.collisionMode = 1 →
        (collideStep s i).cindex = s.cindex ∧
        (collideStep s i).click = s.click ∧
        (collideStep s i).increment = -s.increment) := by
  have hdone : ∀ t : CollisionType,
      violates (getTransformedPosition s.modelMatrix i) t →
      collideStep s i = processCollision s i t →
      ∃ t : CollisionType,
        violates (getTransformedPosition s.modelMatrix i) t ∧
        collideStep s i = processCollision s i t ∧
        (collideStep s i).modelMatrix =
          mul4 (fixTranslation t) s.modelMatrix ∧
        (s.collisionMode = 0 →
          (collideStep s i).cindex = i ∧ (collideStep s i).click = true ∧
          (collideStep s i).increment = s.increment) ∧
        (s.collisionMode = 1 →
          (collideStep s i).cindex = s.cindex ∧
          (collideStep s i).click = s.click ∧
          (collideStep s i).increment = -s.increment) := by
    intro t hv hstep
    refine ⟨t, hv, hstep, ?_, ?_, ?_⟩
    · rw [hstep]
      exact processCollision_modelMatrix s i t
    · intro hm
      rw [hstep]
      exact processCollision_mode0 s i t hm
    · intro hm
      rw [hstep]
      exact processCollision_modeNe s i t (by rw [hm]; norm_num)
  by_cases h1 : (getTransformedPosition s.modelMatrix i).1 < -wsize / 2
  · exact hdone .left h1 (by simp [collideStep, h1])
  by_cases h2 : (getTransformedPosition s.modelMatrix i).1 > wsize / 2
  · exact hdone .right h2 (by simp [collideStep, h1, h2])
  by_cases h3 : (getTransformedPosition s.modelMatrix i).2 < -wsize / 2
  · exact hdone .down h3 (by simp [collideStep, h1, h2, h3])
  by_cases h4 : (getTransformedPosition s.modelMatrix i).2 > wsize / 2
  · exact hdone .up h4 (by simp [collideStep, h1, h2, h3, h4])
  · rcases h with h | h | h | h <;> contradiction

/-- Witness for C1: at `wstateRight`, corner 0 is transformed to
`(3.5, -0.5)`, violating the right bound, so the collision response
applies. -/
theorem collision_response_witness :
    ((getTransformedPosition wstateRight.modelMatrix 0).1 < -wsize / 2 ∨
     (getTransformedPosition wstateRight.modelMatrix 0).1 > wsize / 2 ∨
     (getTransformedPosition wstateRight.modelMatrix 0).2 < -wsize / 2 ∨
     (getTransformedPosition wstateRight.modelMatrix 0).2 > wsize / 2) ∧
    ∃ t : CollisionType,
      violates (getTransformedPosition wstateRight.modelMatrix 0) t ∧
      collideStep wstateRight 0 = processCollision wstateRight 0 t ∧
      (collideStep wstateRight 0).modelMatrix =
        mul4 (fixTranslation t) wstateRight.modelMatrix ∧
      (wstateRight.collisionMode = 0 →
        (collideStep wstateRight 0).cindex = 0 ∧
        (collideStep wstateRight 0).click = true ∧
        (collideStep wstateRight 0).increment = wstateRight.increment) ∧
      (wstateRight.collisionMode = 1 →
        (collideStep wstateRight 0).cindex = wstateRight.cindex ∧
        (collideStep wstateRight 0).click = wstateRight.click ∧
        (collideStep wstateRight 0).increment = -wstateRight.increment) :=
  ⟨by norm_num [getTransformedPosition, mulVec4, setTranslate, wsize,
      wstateRight],
   collision_response wstateRight 0 (by
    norm_num [getTransformedPosition, mulVec4, setTranslate, wsize,
      wstateRight])⟩

/-- Claim C2: every collision translates the model matrix back into the
viewport by `0.08` along the violated axis, as a left multiplication:
`x < -wsize/2` gives `(+0.08, 0)`, `x > wsize/2` gives `(-0.08, 0)`,
`y < -wsize/2` gives `(0, +0.08)` and `y > wsize/2` gives `(0, -0.08)`
(each case guarded by the earlier tests not firing, since the source
processes at most one axis per corner). -/
theorem collision_translation (s : AnimState K) (i : ℕ) :
    ((getTransformedPosition s.modelMatrix i).1 < -wsize / 2 →
      (collideStep s i).modelMatrix =
        mul4 (setTranslate (8/100) 0 0) s.modelMatrix) ∧
    (¬ (getTransformedPosition s.modelMatrix i).1 < -wsize / 2 →
      (getTransformedPosition s.modelMatrix i).1 > wsize / 2 →
      (collideStep s i).modelMatrix =
        mul4 (setTranslate (-(8/100)) 0 0) s.modelMatrix) ∧
    (¬ (getTransformedPosition s.modelMatrix i).1 < -wsize / 2 →
      ¬ (getTransformedPosition s.modelMatrix i).1 > wsize / 2 →
      (getTransformedPosition s.modelMatrix i).2 < -wsize / 2 →
      (collideStep s i).modelMatrix =
        mul4 (setTranslate 0 (8/100) 0) s.modelMatrix) ∧
    (¬ (getTransformedPosition s.modelMatrix i).1 < -wsize / 2 →
      ¬ (getTransformedPosition s.modelMatrix i).1 > wsize / 2 →
      ¬ (getTransformedPosition s.modelMatrix i).2 < -wsize / 2 →
      (getTransformedPosition s.modelMatrix i).2 > wsize / 2 →
      (collideStep s i).modelMatrix =
        mul4 (setTranslate 0 (-(8/100)) 0) s.modelMatrix) := by
  refine ⟨fun h1 => ?_, fun h1 h2 => ?_, fun h1 h2 h3 => ?_,
    fun h1 h2 h3 h4 => ?_⟩
  · rw [show collideStep s i = processCollision s i .left from
      by simp [collideStep, h1]]
    simpa [fixTranslation] using processCollision_modelMatrix s i .left
  · rw [show collideStep s i = processCollision s i .right from
      by simp [collideStep, h1, h2]]
    simpa [fixTranslation] using processCollision_modelMatrix s i .right
  · rw [show collideStep s i = processCollision s i .down from
      by simp [collideStep, h1, h2, h3]]
    simpa [fixTranslation] using processCollision_modelMatrix s i .down
  · rw [show collideStep s i = processCollision s i .up from
      by simp [collideStep, h1, h2, h3, h4]]
    simpa [fixTranslation] using processCollision_modelMatrix s i .up

/-- Witness for C2: at `wstateDown`, corner 0 is transformed to
`(-0.5, -4.5)`: `x` is in bounds and `y` violates the bottom bound, so the
corrective translation is `(0, +0.08)`. -/
theorem collision_translation_witness :
    ¬ (getTransformedPosition wstateDown.modelMatrix 0).1 < -wsize / 2 ∧
    ¬ (getTransformedPosition wstateDown.modelMatrix 0).1 > wsize / 2 ∧
    (getTransformedPosition wstateDown.modelMatrix 0).2 < -wsize / 2 ∧
    (collideStep wstateDown 0).modelMatrix =
      mul4 (setTranslate 0 (8/100) 0) wstateDown.modelMatrix := by
  have e1 : ¬ (getTransformedPosition wstateDown.modelMatrix 0).1 <
      -wsize / 2 := by
    norm_num [getTransformedPosition, mulVec4, setTranslate, wsize, wstateDown]
  have e2 : ¬ (getTransformedPosition wstateDown.modelMatrix 0).1 >
      wsize / 2 := by
    norm_num [getTransformedPosition, mulVec4, setTranslate, wsize, wstateDown]
  have e3 : (getTransformedPosition wstateDown.modelMatrix 0).2 <
      -wsize / 2 := by
    norm_num [getTransformedPosition, mulVec4, setTranslate, wsize, wstateDown]
  exact ⟨e1, e2, e3, (collision_translation wstateDown 0).2.2.1 e1 e2 e3⟩

/-- Claim C3: the collision check runs over exactly the corner indexes
`[0, 1, 2, 5]`, compares the transformed positions against the half-extent
`wsize / 2 = 5/2`, and for each corner processes at most one axis violation,
testing left, right, bottom, top in that order. -/
theorem detect_checks_corners (s : AnimState K) (i : ℕ) :
    wsize / 2 = (5 : K) / 2 ∧
    cornerIndexes = [0, 1, 2, 5] ∧
    detectcollision s =
      collideStep (collideStep (collideStep (collideStep s 0) 1) 2) 5 ∧
    ((getTransformedPosition s.modelMatrix i).1 < -wsize / 2 →
      collideStep s i = processCollision s i CollisionType.left) ∧
    (¬ (getTransformedPosition s.modelMatrix i).1 < -wsize / 2 →
      (getTransformedPosition s.modelMatrix i).1 > wsize / 2 →
      collideStep s i = processCollision s i CollisionType.right) ∧
    (¬ (getTransformedPosition s.modelMatrix i).1 < -wsize / 2 →
      ¬ (getTransformedPosition s.modelMatrix i).1 > wsize / 2 →
      (getTransformedPosition s.modelMatrix i).2 < -wsize / 2 →
      collideStep s i = processCollision s i CollisionType.down) ∧
    (¬ (getTransformedPosition s.modelMatrix i).1 < -wsize / 2 →
      ¬ (getTransformedPosition s.modelMatrix i).1 > wsize / 2 →
      ¬ (getTransformedPosition s.modelMatrix i).2 < -wsize / 2 →
      (getTransformedPosition s.modelMatrix i).2 > wsize / 2 →
      collideStep s i = processCollision s i CollisionType.up) ∧
    (¬ (getTransformedPosition s.modelMatrix i).1 < -wsize / 2 →
      ¬ (getTransformedPosition s.modelMatrix i).1 > wsize / 2 →
      ¬ (getTransformedPosition s.modelMatrix i).2 < -wsize / 2 →
      ¬ (getTransformedPosition s.modelMatrix i).2 > wsize / 2 →
      collideStep s i = s) := by
  refine ⟨by norm_num [wsize], rfl, rfl, fun h1 => ?_, fun h1 h2 => ?_,
    fun h1 h2 h3 => ?_, fun h1 h2 h3 h4 => ?_, fun h1 h2 h3 h4 => ?_⟩ <;>
    simp [collideStep, h1]
  · simp [h2]
  · simp [h2, h3]
  · simp [h2, h3, h4]
  · simp [h2, h3, h4]

/-- Witness for C3: at `wstateUp`, corner 0 is transformed to `(-0.5, 3.5)`,
in bounds on `x` and on the bottom, violating the top bound, so the `up`
collision is the one processed. -/
theorem detect_checks_corners_witness :
    ¬ (getTransformedPosition wstateUp.modelMatrix 0).1 < -wsize / 2 ∧
    ¬ (getTransformedPosition wstateUp.modelMatrix 0).1 > wsize / 2 ∧
    ¬ (getTransformedPosition wstateUp.modelMatrix 0).2 < -wsize / 2 ∧
    (getTransformedPosition wstateUp.modelMatrix 0).2 > wsize / 2 ∧
    collideStep wstateUp 0 = processCollision wstateUp 0 CollisionType.up := by
  have e1 : ¬ (getTransformedPosition wstateUp.modelMatrix 0).1 <
      -wsize / 2 := by
    norm_num [getTransformedPosition, mulVec4, setTranslate, wsize, wstateUp]
  have e2 : ¬ (getTransformedPosition wstateUp.modelMatrix 0).1 >
      wsize / 2 := by
    norm_num [getTransformedPosition, mulVec4, setTranslate, wsize, wstateUp]
  have e3 : ¬ (getTransformedPosition wstateUp.modelMatrix 0).2 <
      -wsize / 2 := by
    norm_num [getTransformedPosition, mulVec4, setTranslate, wsize, wstateUp]
  have e4 : (getTransformedPosition wstateUp.modelMatrix 0).2 > wsize / 2 := by
    norm_num [getTransformedPosition, mulVec4, setTranslate, wsize, wstateUp]
  exact ⟨e1, e2, e3, e4,
    (detect_checks_corners wstateUp 0).2.2.2.2.2.2.1 e1 e2 e3 e4⟩

@[simp] lemma processCollision_scale (s : AnimState K) (i : ℕ)
    (t : CollisionType) : (processCollision s i t).scale = s.scale := by
  cases t <;> simp [processCollision, apply_ite]

@[simp] lemma processCollision_ang (s : AnimState K) (i : ℕ)
    (t : CollisionType) : (processCollision s i t).ang = s.ang := by
  cases t <;> simp [processCollision, apply_ite]

@[simp] lemma processCollision_tx (s : AnimState K) (i : ℕ)
    (t : CollisionType) : (processCollision s i t).tx = s.tx := by
  cases t <;> simp [processCollision, apply_ite]

@[simp] lemma processCollision_ty (s : AnimState K) (i : ℕ)
    (t : CollisionType) : (processCollision s i t).ty = s.ty := by
  cases t <;> simp [processCollision, apply_ite]

@[simp] lemma processCollision_corner (s : AnimState K) (i : ℕ)
    (t : CollisionType) : (processCollision s i t).corner = s.corner := by
  cases t <;> simp [processCollision, apply_ite]

@[simp] lemma processCollision_proj (s : AnimState K) (i : ℕ)
    (t : CollisionType) :
    (processCollision s i t).projectionMatrix = s.projectionMatrix := by
  cases t <;> simp [processCollision, apply_ite]

@[simp] lemma processCollision_mode (s : AnimState K) (i : ℕ)
    (t : CollisionType) :
    (processCollision s i t).collisionMode = s.collisionMode := by
  cases t <;> simp [processCollision, apply_ite]

@[simp] lemma collideStep_scale (s : AnimState K) (i : ℕ) :
    (collideStep s i).scale = s.scale := by
  simp only [collideStep]
  split_ifs <;> simp

@[simp] lemma collideStep_ang (s : AnimState K) (i : ℕ) :
    (collideStep s i).ang = s.ang := by
  simp only [collideStep]
  split_ifs <;> simp

@[simp] lemma collideStep_tx (s : AnimState K) (i : ℕ) :
    (collideStep s i).tx = s.tx := by
  simp only [collideStep]
  split_ifs <;> simp

@[simp] lemma collideStep_ty (s : AnimState K) (i : ℕ) :
    (collideStep s i).ty = s.ty := by
  simp only [collideStep]
  split_ifs <;> simp

@[simp] lemma collideStep_corner (s : AnimState K) (i : ℕ) :
    (collideStep s i).corner = s.corner := by
  simp only [collideStep]
  split_ifs <;> simp

@[simp] lemma collideStep_proj (s : AnimState K) (i : ℕ) :
    (collideStep s i).projectionMatrix = s.projectionMatrix := by
  simp only [collideStep]
  split_ifs <;> simp

@[simp] lemma collideStep_mode (s : AnimState K) (i : ℕ) :
    (collideStep s i).collisionMode = s.collisionMode := by
  simp only [collideStep]
  split_ifs <;> simp

lemma detectcollision_eq (s : AnimState K) :
    detectcollision s =
      collideStep (collideStep (collideStep (collideStep s 0) 1) 2) 5 := rfl

@[simp] lemma detectcollision_scale (s : AnimState K) :
    (detectcollision s).scale = s.scale := by
  rw [detectcollision_eq]
  simp

@[simp] lemma detectcollision_ang (s : AnimState K) :
    (detectcollision s).ang = s.ang := by
  rw [detectcollision_eq]
  simp

@[simp] lemma detectcollision_tx (s : AnimState K) :
    (detectcollision s).tx = s.tx := by
  rw [detectcollision_eq]
  simp

@[simp] lemma detectcollision_ty (s : AnimState K) :
    (detectcollision s).ty = s.ty := by
  rw [detectcollision_eq]
  simp

@[simp] lemma detectcollision_corner (s : AnimState K) :
    (detectcollision s).corner = s.corner := by
  rw [detectcollision_eq]
  simp

@[simp] lemma detectcollision_proj (s : AnimState K) :
    (detectcollision s).projectionMatrix = s.projectionMatrix := by
  rw [detectcollision_eq]
  simp

@[simp] lemma detectcollision_mode (s : AnimState K) :
    (detectcollision s).collisionMode = s.collisionMode := by
  rw [detectcollision_eq]
  simp

@[simp] lemma handleKeyPress_modelMatrix (ch : String) (s : AnimState K) :
    (handleKeyPress ch s).modelMatrix = s.modelMatrix := by
  simp only [handleKeyPress]
  split_ifs <;> rfl

@[simp] lemma handleKeyPress_proj (ch : String) (s : AnimState K) :
    (handleKeyPress ch s).projectionMatrix = s.projectionMatrix := by
  simp only [handleKeyPress]
  split_ifs <;> rfl

@[simp] lemma handleKeyPress_ang (ch : String) (s : AnimState K) :
    (handleKeyPress ch s).ang = s.ang := by
  simp only [handleKeyPress]
  split_ifs <;> rfl

@[simp] lemma handleKeyPress_tx (ch : String) (s : AnimState K) :
    (handleKeyPress ch s).tx = s.tx := by
  simp only [handleKeyPress]
  split_ifs <;> rfl

@[simp] lemma handleKeyPress_ty (ch : String) (s : AnimState K) :
    (handleKeyPress ch s).ty = s.ty := by
  simp only [handleKeyPress]
  split_ifs <;> rfl

@[simp] lemma handleKeyPress_increment (ch : String) (s : AnimState K) :
    (handleKeyPress ch s).increment = s.increment := by
  simp only [handleKeyPress]
  split_ifs <;> rfl

@[simp] lemma handleKeyPress_corner (ch : String) (s : AnimState K) :
    (handleKeyPress ch s).corner = s.corner := by
  simp only [handleKeyPress]
  split_ifs <;> rfl

@[simp] lemma runanimationStep_scale [FloorRing K] (cosd sind : K → K)
    (s : AnimState K) : (runanimationStep cosd sind s).scale = s.scale := by
  simp only [runanimationStep]
  split_ifs <;> simp

@[simp] lemma runanimationStep_proj [FloorRing K] (cosd sind : K → K)
    (s : AnimState K) :
    (runanimationStep cosd sind s).projectionMatrix = s.projectionMatrix := by
  simp only [runanimationStep]
  split_ifs <;> simp

@[simp] lemma runanimationStep_mode [FloorRing K] (cosd sind : K → K)
    (s : AnimState K) :
    (runanimationStep cosd sind s).collisionMode = s.collisionMode := by
  simp only [runanimationStep]
  split_ifs <;> simp

lemma runanimationStep_cindex [FloorRing K] (cosd sind : K → K)
    (s : AnimState K) :
    (runanimationStep cosd sind s).cindex = (detectcollision s).cindex := by
  simp only [runanimationStep]
  split_ifs <;> rfl

lemma scaleInv_handleKeyPress (ch : String) (s : AnimState K)
    (h : scaleInv s) : scaleInv (handleKeyPress ch s) := by
  obtain ⟨k, hk5, hk15, hs⟩ := h
  simp only [handleKeyPress]
  split_ifs with h1 h2 h3 h4 h5 hup h6 hdn h7 h8
  · exact ⟨k, hk5, hk15, hs⟩
  · exact ⟨k, hk5, hk15, hs⟩
  · exact ⟨k, hk5, hk15, hs⟩
  · exact ⟨k, hk5, hk15, hs⟩
  · have hcast : (k : K) < 15 := by
      rw [hs] at hup
      linarith
    have hk : k < 15 := by exact_mod_cast hcast
    refine ⟨k + 1, by omega, by omega, ?_⟩
    have : s.scale + 1/10 = ((k + 1 : ℕ) : K) / 10 := by
      rw [hs]
      push_cast
      ring
    exact this
  · exact ⟨k, hk5, hk15, hs⟩
  · have hcast : (5 : K) < k := by
      rw [hs] at hdn
      linarith
    have hk : 5 < k := by exact_mod_cast hcast
    refine ⟨k - 1, by omega, by omega, ?_⟩
    have : s.scale - 1/10 = ((k - 1 : ℕ) : K) / 10 := by
      rw [hs, Nat.cast_sub (by omega)]
      push_cast
      ring
    exact this
  · exact ⟨k, hk5, hk15, hs⟩
  · exact ⟨k, hk5, hk15, hs⟩
  · exact ⟨k, hk5, hk15, hs⟩
  · exact ⟨k, hk5, hk15, hs⟩

lemma scaleInv_foldl [FloorRing K] (cosd sind : K → K) (l : List Event)
    (s : AnimState K) (h : scaleInv s) :
    scaleInv (l.foldl (step cosd sind) s) := by
  induction l generalizing s with
  | nil => exact h
  | cons e l ih =>
    rw [List.foldl_cons]
    refine ih _ ?_
    cases e with
    | key ch => exact scaleInv_handleKeyPress ch s h
    | frame =>
      obtain ⟨k, hk5, hk15, hs⟩ := h
      exact ⟨k, hk5, hk15, by rw [step, runanimationStep_scale]; exact hs⟩

/-- Claim C8: with exact arithmetic the scale factor starts at `1`, is never
modified by the animation frame step, and stays in `[1/2, 3/2]` for every
sequence of events. -/
theorem scale_bounded [FloorRing K] (cosd sind : K → K) :
    (initState : AnimState K).scale = 1 ∧
    (∀ s : AnimState K, (runanimationStep cosd sind s).scale = s.scale) ∧
    ∀ evs : List Event,
      1/2 ≤ (runProgram cosd sind evs).scale ∧
      (runProgram cosd sind evs).scale ≤ 3/2 := by
  refine ⟨rfl, fun s => runanimationStep_scale cosd sind s, fun evs => ?_⟩
  obtain ⟨k, hk5, hk15, hs⟩ := scaleInv_foldl cosd sind evs initState
    ⟨10, by norm_num, by norm_num, by norm_num [initState]⟩
  rw [runProgram, hs]
  have h5 : (5 : K) ≤ k := by exact_mod_cast hk5
  have h15 : (k : K) ≤ 15 := by exact_mod_cast hk15
  constructor <;> linarith

lemma cindex_handleKeyPress (ch : String) (s : AnimState K)
    (h : s.cindex ∈ cornerIndexes) :
    (handleKeyPress ch s).cindex ∈ cornerIndexes := by
  simp only [handleKeyPress]
  split_ifs <;> first | exact h | simp [cornerIndexes]

lemma cindex_collideStep (s : AnimState K) (i : ℕ)
    (hi : i ∈ cornerIndexes) (h : s.cindex ∈ cornerIndexes) :
    (collideStep s i).cindex ∈ cornerIndexes := by
  have hp : ∀ t : CollisionType,
      (processCollision s i t).cindex ∈ cornerIndexes := by
    intro t
    by_cases hm : s.collisionMode = 0
    · rw [(processCollision_mode0 s i t hm).1]
      exact hi
    · rw [(processCollision_modeNe s i t hm).1]
      exact h
  simp only [collideStep]
  split_ifs <;> first | apply hp | exact h

lemma cindex_detectcollision (s : AnimState K)
    (h : s.cindex ∈ cornerIndexes) :
    (detectcollision s).cindex ∈ cornerIndexes := by
  rw [detectcollision_eq]
  refine cindex_collideStep _ 5 (by simp [cornerIndexes]) ?_
  refine cindex_collideStep _ 2 (by simp [cornerIndexes]) ?_
  refine cindex_collideStep _ 1 (by simp [cornerIndexes]) ?_
  exact cindex_collideStep _ 0 (by simp [cornerIndexes]) h

lemma cindex_foldl [FloorRing K] (cosd sind : K → K) (l : List Event)
    (s : AnimState K) (h : s.cindex ∈ cornerIndexes) :
    (l.foldl (step cosd sind) s).cindex ∈ cornerIndexes := by
  induction l generalizing s with
  | nil => exact h
  | cons e l ih =>
    rw [List.foldl_cons]
    refine ih _ ?_
    cases e with
    | key ch => exact cindex_handleKeyPress ch s h
    | frame =>
      rw [step, runanimationStep_cindex]
      exact cindex_detectcollision s h

/-- Claim C9: the active corner index starts at `0` and is always one of the
tracked indexes `[0, 1, 2, 5]`; in particular a mode-1 collision never
changes it. -/
theorem cindex_tracked [FloorRing K] (cosd sind : K → K) :
    (initState : AnimState K).cindex = 0 ∧
    (∀ evs : List Event,
      (runProgram cosd sind evs).cindex ∈ cornerIndexes) ∧
    ∀ (s : AnimState K) (i : ℕ) (t : CollisionType),
      s.collisionMode = 1 → (processCollision s i t).cindex = s.cindex := by
  refine ⟨rfl, fun evs => ?_, fun s i t hm => ?_⟩
  · exact cindex_foldl cosd sind evs initState (by simp [initState, cornerIndexes])
  · exact (processCollision_modeNe s i t (by rw [hm]; norm_num)).1

/-- Witness for C9 at the concrete state `wstateUp`, whose collision mode
is 1. -/
theorem cindex_tracked_witness :
    wstateUp.collisionMode = 1 ∧
    (processCollision wstateUp 0 CollisionType.up).cindex = wstateUp.cindex :=
  ⟨rfl, (cindex_tracked (id : ℚ → ℚ) id).2.2 wstateUp 0 CollisionType.up rfl⟩

lemma Affine2_setTranslate (a b : K) : Affine2 (setTranslate a b 0) := by
  simp [Affine2, setTranslate]

lemma Affine2_scaleMat4 (a b : K) : Affine2 (scaleMat4 a b 1) := by
  simp [Affine2, scaleMat4]

lemma Affine2_rotateZ (c s : K) : Affine2 (rotateZ c s) := by
  simp [Affine2, rotateZ]

lemma Affine2_id4 : Affine2 (id4 : Mat4 K) := by
  simp [Affine2, id4]

lemma Affine2_mul4 (a b : Mat4 K) (ha : Affine2 a) (hb : Affine2 b) :
    Affine2 (mul4 a b) := by
  obtain ⟨a1, a2, a3, a4, a5, a6, a7, a8⟩ := ha
  obtain ⟨b1, b2, b3, b4, b5, b6, b7, b8⟩ := hb
  refine ⟨?_, ?_, ?_, ?_, ?_, ?_, ?_, ?_⟩ <;>
    simp [mul4, a1, a2, a3, a4, a5, a6, a7, a8, b1, b2, b3, b4, b5, b6, b7, b8]

lemma Affine2_fixTranslation (t : CollisionType) :
    Affine2 (fixTranslation t : Mat4 K) := by
  cases t <;> exact Affine2_setTranslate _ _

lemma Affine2_rotASC (c s sc x y tx ty : K) :
    Affine2 (rotateAndScaleAboutCorner c s sc x y tx ty) := by
  unfold rotateAndScaleAboutCorner
  exact Affine2_mul4 _ _ (Affine2_mul4 _ _ (Affine2_mul4 _ _ (Affine2_mul4 _ _
    (Affine2_setTranslate x y) (Affine2_scaleMat4 sc sc)) (Affine2_rotateZ c s))
    (Affine2_setTranslate (-x) (-y))) (Affine2_setTranslate tx ty)

lemma mulVec4_affine (m : Mat4 K) (h : Affine2 m) (a b : K) :
    mulVec4 m (vec4 a b 0 1) 2 = 0 ∧ mulVec4 m (vec4 a b 0 1) 3 = 1 := by
  obtain ⟨h1, h2, h3, h4, h5, h6, h7, h8⟩ := h
  constructor <;> simp [mulVec4, h1, h2, h3, h4, h5, h6, h7, h8]

lemma cornerOK_processCollision (s : AnimState K) (i : ℕ) (t : CollisionType)
    (h : CornerOK s) : CornerOK (processCollision s i t) := by
  obtain ⟨hz, hw, hA, hd⟩ := h
  refine ⟨by simp [hz], by simp [hw], ?_, ?_⟩
  · rw [processCollision_modelMatrix]
    exact Affine2_mul4 _ _ (Affine2_fixTranslation t) hA
  · by_cases hm0 : s.collisionMode = 0
    · exact Or.inl (processCollision_mode0 s i t hm0).2.1
    · obtain ⟨hc, hk, _⟩ := processCollision_modeNe s i t hm0
      rcases hd with hd | ⟨hd1, hd2⟩
      · exact Or.inl (by rw [hk, hd])
      · exact Or.inr ⟨by simpa [hc] using hd1, by simpa [hc] using hd2⟩

lemma cornerOK_collideStep (s : AnimState K) (i : ℕ) (h : CornerOK s) :
    CornerOK (collideStep s i) := by
  simp only [collideStep]
  split_ifs <;> first | exact cornerOK_processCollision _ _ _ h | exact h

lemma cornerOK_detectcollision (s : AnimState K) (h : CornerOK s) :
    CornerOK (detectcollision s) := by
  rw [detectcollision_eq]
  exact cornerOK_collideStep _ 5 (cornerOK_collideStep _ 2
    (cornerOK_collideStep _ 1 (cornerOK_collideStep _ 0 h)))

lemma cornerOK_handleKeyPress (ch : String) (s : AnimState K)
    (h : CornerOK s) : CornerOK (handleKeyPress ch s) := by
  obtain ⟨hz, hw, hA, hd⟩ := h
  simp only [handleKeyPress]
  split_ifs <;>
    first
      | exact ⟨hz, hw, hA, Or.inl rfl⟩
      | exact ⟨hz, hw, hA, hd⟩

lemma runanimationStep_modelMatrix [FloorRing K] (cosd sind : K → K)
    (s : AnimState K) :
    (runanimationStep cosd sind s).modelMatrix =
      rotateAndScaleAboutCorner
        (cosd (runanimationStep cosd sind s).ang)
        (sind (runanimationStep cosd sind s).ang)
        (runanimationStep cosd sind s).scale
        ((runanimationStep cosd sind s).corner 0)
        ((runanimationStep cosd sind s).corner 1)
        (runanimationStep cosd sind s).tx
        (runanimationStep cosd sind s).ty := by
  simp only [runanimationStep]

lemma runanimationStep_anchor [FloorRing K] (cosd sind : K → K)
    (s : AnimState K) (hc : (detectcollision s).click = true) :
    (runanimationStep cosd sind s).corner =
      mulVec4 (detectcollision s).modelMatrix
        (vec4 (getVertex (detectcollision s).cindex).1
          (getVertex (detectcollision s).cindex).2
          ((detectcollision s).corner 2) ((detectcollision s).corner 3)) ∧
    (runanimationStep cosd sind s).tx =
      (runanimationStep cosd sind s).corner 0 -
        (getVertex (detectcollision s).cindex).1 ∧
    (runanimationStep cosd sind s).ty =
      (runanimationStep cosd sind s).corner 1 -
        (getVertex (detectcollision s).cindex).2 ∧
    (runanimationStep cosd sind s).click = false := by
  simp only [runanimationStep, hc, if_true]
  exact ⟨trivial, trivial, trivial, trivial⟩

lemma runanimationStep_noclick [FloorRing K] (cosd sind : K → K)
    (s : AnimState K) (hc : (detectcollision s).click = false) :
    (runanimationStep cosd sind s).corner = (detectcollision s).corner ∧
    (runanimationStep cosd sind s).tx = (detectcollision s).tx ∧
    (runanimationStep cosd sind s).ty = (detectcollision s).ty ∧
    (runanimationStep cosd sind s).click = false := by
  simp only [runanimationStep, hc, Bool.false_eq_true, if_false]
  refine ⟨?_, ?_, ?_, ?_⟩ <;> trivial

lemma cornerOK_runanimationStep [FloorRing K] (cosd sind : K → K)
    (s : AnimState K) (h : CornerOK s) :
    CornerOK (runanimationStep cosd sind s) := by
  obtain ⟨hz, hw, hA, hd⟩ := cornerOK_detectcollision s h
  cases hc : (detectcollision s).click with
  | true =>
    obtain ⟨hcor, htx, hty, _⟩ := runanimationStep_anchor cosd sind s hc
    refine ⟨?_, ?_, ?_, Or.inr ⟨?_, ?_⟩⟩
    · rw [hcor, hz, hw]
      exact (mulVec4_affine _ hA _ _).1
    · rw [hcor, hz, hw]
      exact (mulVec4_affine _ hA _ _).2
    · rw [runanimationStep_modelMatrix]
      exact Affine2_rotASC _ _ _ _ _ _ _
    · rw [runanimationStep_cindex, htx]
      ring
    · rw [runanimationStep_cindex, hty]
      ring
  | false =>
    obtain ⟨hcor, htx, hty, _⟩ := runanimationStep_noclick cosd sind s hc
    rcases hd with hd | ⟨hd1, hd2⟩
    · rw [hc] at hd
      cases hd
    · refine ⟨?_, ?_, ?_, Or.inr ⟨?_, ?_⟩⟩
      · rw [hcor]
        exact hz
      · rw [hcor]
        exact hw
      · rw [runanimationStep_modelMatrix]
        exact Affine2_rotASC _ _ _ _ _ _ _
      · rw [runanimationStep_cindex, htx, hcor]
        exact hd1
      · rw [runanimationStep_cindex, hty, hcor]
        exact hd2

lemma cornerOK_initState : CornerOK (initState : AnimState K) := by
  refine ⟨rfl, rfl, Affine2_id4, Or.inr ⟨?_, ?_⟩⟩ <;> simp [initState]

lemma cornerOK_foldl [FloorRing K] (cosd sind : K → K) (l : List Event)
    (s : AnimState K) (h : CornerOK s) :
    CornerOK (l.foldl (step cosd sind) s) := by
  induction l generalizing s with
  | nil => exact h
  | cons e l ih =>
    rw [List.foldl_cons]
    refine ih _ ?_
    cases e with
    | key ch => exact cornerOK_handleKeyPress ch s h
    | frame => exact cornerOK_runanimationStep cosd sind s h

lemma proj_foldl [FloorRing K] (cosd sind : K → K) (l : List Event)
    (s : AnimState K) :
    (l.foldl (step cosd sind) s).projectionMatrix = s.projectionMatrix := by
  induction l generalizing s with
  | nil => rfl
  | cons e l ih =>
    rw [List.foldl_cons, ih]
    cases e with
    | key ch => exact handleKeyPress_proj ch s
    | frame => exact runanimationStep_proj cosd sind s

lemma runanimationStep_build [FloorRing K] (cosd sind : K → K)
    (s : AnimState K) (h : CornerOK s) :
    (runanimationStep cosd sind s).modelMatrix =
      buildModelMatrix cosd sind
        (runanimationStep cosd sind s).ang
        (runanimationStep cosd sind s).scale
        (runanimationStep cosd sind s).cindex
        (runanimationStep cosd sind s).tx
        (runanimationStep cosd sind s).ty := by
  obtain ⟨hz, hw, hA, hd⟩ := cornerOK_detectcollision s h
  have hx : (runanimationStep cosd sind s).corner 0 =
      (runanimationStep cosd sind s).tx +
        (getVertex (runanimationStep cosd sind s).cindex).1 ∧
      (runanimationStep cosd sind s).corner 1 =
      (runanimationStep cosd sind s).ty +
        (getVertex (runanimationStep cosd sind s).cindex).2 := by
    cases hc : (detectcollision s).click with
    | true =>
      obtain ⟨hcor, htx, hty, _⟩ := runanimationStep_anchor cosd sind s hc
      constructor
      · rw [runanimationStep_cindex, htx]
        ring
      · rw [runanimationStep_cindex, hty]
        ring
    | false =>
      obtain ⟨hcor, htx, hty, _⟩ := runanimationStep_noclick cosd sind s hc
      rcases hd with hd | ⟨hd1, hd2⟩
      · rw [hc] at hd
        cases hd
      · constructor
        · rw [runanimationStep_cindex, htx, hcor]
          exact hd1
        · rw [runanimationStep_cindex, hty, hcor]
          exact hd2
  rw [runanimationStep_modelMatrix, hx.1, hx.2]
  rfl

/-- Claim C5: after any event sequence ending in an animation frame, the
model matrix equals a fixed function of the scalar state (angle, scale,
translation, corner index) alone, and the projection matrix is unchanged
from its initial orthographic value. -/
theorem matrices_from_scalars [FloorRing K] (cosd sind : K → K)
    (evs : List Event) :
    (runProgram cosd sind (evs ++ [Event.frame])).modelMatrix =
      buildModelMatrix cosd sind
        (runProgram cosd sind (evs ++ [Event.frame])).ang
        (runProgram cosd sind (evs ++ [Event.frame])).scale
        (runProgram cosd sind (evs ++ [Event.frame])).cindex
        (runProgram cosd sind (evs ++ [Event.frame])).tx
        (runProgram cosd sind (evs ++ [Event.frame])).ty ∧
    (runProgram cosd sind (evs ++ [Event.frame])).projectionMatrix =
      setOrtho (-wsize / 2) (wsize / 2) (-wsize / 2) (wsize / 2) 0 1 := by
  have hrun : runProgram cosd sind (evs ++ [Event.frame]) =
      runanimationStep cosd sind (runProgram cosd sind evs) := by
    rw [runProgram, List.foldl_append]
    rfl
  constructor
  · rw [hrun]
    exact runanimationStep_build cosd sind _
      (cornerOK_foldl cosd sind evs initState cornerOK_initState)
  · rw [runProgram, proj_foldl]
    rfl

lemma click_collideStep (s : AnimState K) (i : ℕ) (h : s.click = true) :
    (collideStep s i).click = true := by
  have hp : ∀ t : CollisionType, (processCollision s i t).click = true := by
    intro t
    by_cases hm : s.collisionMode = 0
    · exact (processCollision_mode0 s i t hm).2.1
    · rw [(processCollision_modeNe s i t hm).2.1]
      exact h
  simp only [collideStep]
  split_ifs <;> first | apply hp | exact h

lemma click_detectcollision (s : AnimState K) (h : s.click = true) :
    (detectcollision s).click = true := by
  rw [detectcollision_eq]
  exact click_collideStep _ 5 (click_collideStep _ 2
    (click_collideStep _ 1 (click_collideStep _ 0 h)))

/-- Claim C6: the keys `"r"`, `"g"`, `"b"`, `"w"` select corner index 0, 1,
2, 5 respectively and set the re-anchor flag, and on the next frame (when
`click` is set) the pivot is recomputed as the selected vertex transformed
by the current model matrix, with `(tx, ty)` set to the difference between
the transformed pivot and the vertex. -/
theorem pivot_selectable (cosd sind : K → K) [FloorRing K] (s : AnimState K) :
    ((handleKeyPress ("r") s).cindex = 0 ∧
      (handleKeyPress ("r") s).click = true) ∧
    ((handleKeyPress ("g") s).cindex = 1 ∧
      (handleKeyPress ("g") s).click = true) ∧
    ((handleKeyPress ("b") s).cindex = 2 ∧
      (handleKeyPress ("b") s).click = true) ∧
    ((handleKeyPress ("w") s).cindex = 5 ∧
      (handleKeyPress ("w") s).click = true) ∧
    (s.click = true →
      (runanimationStep cosd sind s).corner =
        mulVec4 (detectcollision s).modelMatrix
          (vec4 (getVertex (detectcollision s).cindex).1
            (getVertex (detectcollision s).cindex).2
            ((detectcollision s).corner 2) ((detectcollision s).corner 3)) ∧
      (runanimationStep cosd sind s).tx =
        (runanimationStep cosd sind s).corner 0 -
          (getVertex (detectcollision s).cindex).1 ∧
      (runanimationStep cosd sind s).ty =
        (runanimationStep cosd sind s).corner 1 -
          (getVertex (detectcollision s).cindex).2 ∧
      (runanimationStep cosd sind s).cindex = (detectcollision s).cindex) := by
  refine ⟨⟨?_, ?_⟩, ⟨?_, ?_⟩, ⟨?_, ?_⟩, ⟨?_, ?_⟩, fun hc => ?_⟩
  · simp [handleKeyPress]
  · simp [handleKeyPress]
  · simp [handleKeyPress]
  · simp [handleKeyPress]
  · simp [handleKeyPress]
  · simp [handleKeyPress]
  · simp [handleKeyPress]
  · simp [handleKeyPress]
  · obtain ⟨h1, h2, h3, _⟩ :=
      runanimationStep_anchor cosd sind s (click_detectcollision s hc)
    exact ⟨h1, h2, h3, runanimationStep_cindex cosd sind s⟩

/-- Witness for C6 at the concrete state `wstateClick`, whose re-anchor flag
is set. -/
theorem pivot_selectable_witness :
    wstateClick.click = true ∧
    (runanimationStep (id : ℚ → ℚ) id wstateClick).corner =
      mulVec4 (detectcollision wstateClick).modelMatrix
        (vec4 (getVertex (detectcollision wstateClick).cindex).1
          (getVertex (detectcollision wstateClick).cindex).2
          ((detectcollision wstateClick).corner 2)
          ((detectcollision wstateClick).corner 3)) ∧
    (runanimationStep (id : ℚ → ℚ) id wstateClick).tx =
      (runanimationStep (id : ℚ → ℚ) id wstateClick).corner 0 -
        (getVertex (detectcollision wstateClick).cindex).1 ∧
    (runanimationStep (id : ℚ → ℚ) id wstateClick).ty =
      (runanimationStep (id : ℚ → ℚ) id wstateClick).corner 1 -
        (getVertex (detectcollision wstateClick).cindex).2 ∧
    (runanimationStep (id : ℚ → ℚ) id wstateClick).cindex =
      (detectcollision wstateClick).cindex :=
  ⟨rfl, (pivot_selectable (id : ℚ → ℚ) id wstateClick).2.2.2.2 rfl⟩

/-- Witness for C10 at the concrete key `"x"` and the initial state. -/
theorem handleKeyPress_unrecognised_witness :
    ("x" ∉ (["r", "g", "b", "w", "ArrowUp", "ArrowDown", "0", "1"] :
      List String)) ∧
    handleKeyPress ("x") (initState : AnimState ℚ) = initState :=
  ⟨by simp, handleKeyPress_unrecognised initState ("x") (by simp)⟩

end RotatingSquare
